import Mathlib

set_option maxRecDepth 8000

/-!
Verification of the asyncpg dialect adaptation layer
(`lib/sqlalchemy/dialects/postgresql/asyncpg.py`).

Each Python construct relevant to the properties under study is shallowly
embedded as an executable Lean definition; machine state (connection
transaction state, prepared-statement cache, server-side cursor buffers)
is passed explicitly, driver calls are modelled by explicit oracles
(success flags, fresh handles, streamed rows), and raised exceptions by
explicit result flags.
-/

/-! ### Exception message construction
`AsyncAdapt_asyncpg_dbapi.InvalidCachedStatementError.__init__`
(asyncpg.py lines 792-799): the constructor appends a fixed suffix to the
native message before delegating to the base exception class. -/

def invalidCachedStatementSuffix : String :=
  " (SQLAlchemy asyncpg dialect will now invalidate all prepared caches in response to this exception)"

def invalidCachedStatementMessage (message : String) : String :=
  message ++ invalidCachedStatementSuffix

/-! ### Row-count parsing
`AsyncAdapt_asyncpg_cursor._prepare_and_execute` (asyncpg.py lines 421-429)
matches the driver status message against the anchored regular expression
`(?:UPDATE|DELETE|INSERT \d+) (\d+)` and sets `rowcount` to the captured
integer, defaulting to -1 when the pattern does not match. The regex is
embedded as a deterministic matcher on the character list: since `\d+` is
a maximal digit run followed by a mandatory non-digit (a space), greedy
matching coincides with the backtracking semantics of `re.match`. -/

def digitsToNat (ds : List Char) : Nat :=
  ds.foldl (fun acc c => acc * 10 + (c.toNat - 48)) 0

/-- Expects the literal `lit` at the head of `s`; returns the remainder. -/
def dropLit : List Char → List Char → Option (List Char)
  | [], s => some s
  | _ :: _, [] => none
  | l :: ls, c :: cs => if c = l then dropLit ls cs else none

/-- Models the capture group ` (\d+)` minus its leading space: a nonempty
maximal digit run (anything may follow, `re.match` does not anchor the end). -/
def captureCount (s : List Char) : Option Nat :=
  let ds := s.takeWhile Char.isDigit
  if ds.isEmpty then none else some (digitsToNat ds)

/-- Models `\d+ (\d+)` after the literal `INSERT `. -/
def afterInsert (s : List Char) : Option Nat :=
  let ds := s.takeWhile Char.isDigit
  if ds.isEmpty then none
  else
    match s.drop ds.length with
    | c :: rest => if c = ' ' then captureCount rest else none
    | [] => none

/-- `re.match(r"(?:UPDATE|DELETE|INSERT \d+) (\d+)", status)` with the
captured group converted by `int`. -/
def statusRegexMatch (s : List Char) : Option Nat :=
  match dropLit "UPDATE ".data s with
  | some rest => captureCount rest
  | none =>
    match dropLit "DELETE ".data s with
    | some rest => captureCount rest
    | none =>
      match dropLit "INSERT ".data s with
      | some rest => afterInsert rest
      | none => none

/-- Lines 423-429: `self.rowcount = int(reg.group(1))` on a match, else `-1`. -/
def rowcountFromStatus (status : String) : Int :=
  match statusRegexMatch status.data with
  | some n => Int.ofNat n
  | none => -1

/-! ### Parameter placeholder rendering
`AsyncAdapt_asyncpg_cursor._parameter_placeholders` (lines 369-378) and the
`_pg_types` table (lines 840-859). Input-size entries are the DBAPI type
symbols (or `None`); `_pg_types.get` maps each symbol to its textual cast
name. -/

inductive PGType where
  | STRING
  | TIMESTAMP
  | TIMESTAMP_W_TZ
  | TIME
  | DATE
  | INTERVAL
  | NUMBER
  | FLOAT
  | BOOLEAN
  | INTEGER
  | BIGINTEGER
  | BYTES
  | DECIMAL
  | JSON
  | JSONB
  | ENUM
  | UUID
  | BYTEA
deriving DecidableEq, Repr

/-- The `_pg_types` mapping from DBAPI type symbols to cast names. -/
def pgTypes : PGType → String
  | .STRING => "varchar"
  | .TIMESTAMP => "timestamp"
  | .TIMESTAMP_W_TZ => "timestamp with time zone"
  | .DATE => "date"
  | .TIME => "time"
  | .INTERVAL => "interval"
  | .NUMBER => "numeric"
  | .FLOAT => "float"
  | .BOOLEAN => "bool"
  | .INTEGER => "integer"
  | .BIGINTEGER => "bigint"
  | .BYTES => "bytes"
  | .DECIMAL => "decimal"
  | .JSON => "json"
  | .JSONB => "jsonb"
  | .ENUM => "enum"
  | .UUID => "uuid"
  | .BYTEA => "bytea"

/-- `"$%d::%s" % (idx, typ) if typ else "$%d" % idx` for one position. -/
def placeholderFor (idx : Nat) : Option PGType → String
  | some ty => "$" ++ toString idx ++ "::" ++ pgTypes ty
  | none => "$" ++ toString idx

/-- `_parameter_placeholders(params)`: with falsy `_inputsizes` (None or the
empty tuple) enumerate the parameters as `$1..$n`; otherwise enumerate the
declared input sizes through `_pg_types.get`. `nparams` is `len(params)`. -/
def parameterPlaceholders (inputsizes : Option (List (Option PGType)))
    (nparams : Nat) : List String :=
  match inputsizes with
  | none => (List.range nparams).map (fun i => "$" ++ toString (i + 1))
  | some [] => (List.range nparams).map (fun i => "$" ++ toString (i + 1))
  | some (t :: ts) =>
    (t :: ts).enum.map (fun p => placeholderFor (p.1 + 1) p.2)

/-! ### Connection transaction state
`AsyncAdapt_asyncpg_connection` (lines 577-728). The modelled fields are
`isolation_level`, `_isolation_setting`, `_transaction` and `_started`.
Native driver outcomes (whether a coroutine call succeeds, whether the
native connection reports itself closed when an exception is handled) are
passed in as explicit Booleans; a raised exception is an explicit result
flag. Transaction handles are identified by a `Nat` tag. -/

structure ConnState where
  isolationLevel : String
  isolationSetting : String
  transaction : Option Nat
  started : Bool
deriving DecidableEq, Repr

/-- `__init__` (lines 594-603): `isolation_level = _isolation_setting =
"read_committed"`, `_transaction = None`, `_started = False`. -/
def initConn : ConnState :=
  { isolationLevel := "read_committed"
    isolationSetting := "read_committed"
    transaction := none
    started := false }

/-- The state effect of `_handle_exception` (lines 644-647): when the native
connection reports itself closed, the transaction handle and started flag
are force-cleared; the method then always re-raises (translated or not),
which does not alter connection state further. -/
def handleExceptionState (s : ConnState) (connectionClosed : Bool) : ConnState :=
  if connectionClosed then { s with transaction := none, started := false } else s

/-- Outcome of a connection operation: resulting state, whether a native
driver coroutine was invoked, and whether an exception propagated. -/
structure OpResult where
  state : ConnState
  nativeCalled : Bool
  raised : Bool
deriving DecidableEq, Repr

/-- `_start_transaction` (lines 682-696). `newHandle` identifies the native
transaction object returned by `self._connection.transaction(...)`;
`createOk` is whether that call returns (it is evaluated before the
assignment to `_transaction`), `startOk` whether `await
self._transaction.start()` succeeds, and `closedAtError` what
`self._connection.is_closed()` reports inside `_handle_exception`. -/
def startTransaction (s : ConnState) (newHandle : Nat)
    (createOk startOk closedAtError : Bool) : OpResult :=
  if s.isolationLevel = "autocommit" then
    { state := s, nativeCalled := false, raised := false }
  else if createOk then
    let s1 := { s with transaction := some newHandle }
    if startOk then
      { state := { s1 with started := true }, nativeCalled := true, raised := false }
    else
      { state := handleExceptionState s1 closedAtError, nativeCalled := true, raised := true }
  else
    { state := handleExceptionState s closedAtError, nativeCalled := true, raised := true }

/-- `rollback` (lines 704-712): guarded by `_started`; the `finally` block
clears `_transaction` and `_started` on every exit path. -/
def rollbackOp (s : ConnState) (nativeOk closedAtError : Bool) : OpResult :=
  if s.started then
    let s1 := if nativeOk then s else handleExceptionState s closedAtError
    { state := { s1 with transaction := none, started := false }
      nativeCalled := true
      raised := !nativeOk }
  else
    { state := s, nativeCalled := false, raised := false }

/-- `commit` (lines 714-722): textually identical control flow to `rollback`
with the native call being `self._transaction.commit()`. -/
def commitOp (s : ConnState) (nativeOk closedAtError : Bool) : OpResult :=
  if s.started then
    let s1 := if nativeOk then s else handleExceptionState s closedAtError
    { state := { s1 with transaction := none, started := false }
      nativeCalled := true
      raised := !nativeOk }
  else
    { state := s, nativeCalled := false, raised := false }

/-- `close` (lines 724-727): rolls back, then awaits the native close (which
mutates none of the modelled fields; a failure there propagates raw). -/
def closeOp (s : ConnState) (rollbackOk closedAtError closeOk : Bool) : OpResult :=
  let r := rollbackOp s rollbackOk closedAtError
  if r.raised then r
  else { state := r.state, nativeCalled := true, raised := !closeOk }

/-- The `autocommit` property setter (lines 670-675). -/
def setAutocommit (s : ConnState) (value : Bool) : ConnState :=
  if value then { s with isolationLevel := "autocommit" }
  else { s with isolationLevel := s.isolationSetting }

/-- `set_isolation_level` (lines 677-680): rolls back an open transaction
first; if that raises, the assignment is skipped by propagation. -/
def setIsolationLevelOp (s : ConnState) (level : String)
    (nativeOk closedAtError : Bool) : OpResult :=
  let r := rollbackOp s nativeOk closedAtError
  if r.raised then r
  else
    { r with state :=
        { r.state with isolationLevel := level, isolationSetting := level } }

/-- The one-directional transaction invariant: a set started flag implies a
non-empty transaction handle. -/
def txInv (s : ConnState) : Prop :=
  s.started = true → s.transaction ≠ none

/-- States of an adapted connection reachable from `__init__` by any
sequence of the modelled operations, with arbitrary native outcomes. -/
inductive ReachableConn : ConnState → Prop where
  | init : ReachableConn initConn
  | startTx {s} (h : ReachableConn s) (nh : Nat) (c st cl : Bool) :
      ReachableConn (startTransaction s nh c st cl).state
  | commit {s} (h : ReachableConn s) (ok cl : Bool) :
      ReachableConn (commitOp s ok cl).state
  | rollback {s} (h : ReachableConn s) (ok cl : Bool) :
      ReachableConn (rollbackOp s ok cl).state
  | close {s} (h : ReachableConn s) (ok cl cok : Bool) :
      ReachableConn (closeOp s ok cl cok).state
  | autocommit {s} (h : ReachableConn s) (v : Bool) :
      ReachableConn (setAutocommit s v)
  | setIso {s} (h : ReachableConn s) (lvl : String) (ok cl : Bool) :
      ReachableConn (setIsolationLevelOp s lvl ok cl).state

/-! ### Prepared statement cache
`AsyncAdapt_asyncpg_connection._check_type_cache_invalidation` (lines
612-615) and `_prepare` (lines 617-642). Timestamps are `Nat`; statement
handles are `Nat` tags supplied by the driver oracle; attributes are
(column name, type oid) pairs. -/

/-- A cache entry: compiled statement handle, result-column descriptors and
the `time.time()` value recorded when the entry was stored. -/
structure CacheEntry where
  stmt : Nat
  attributes : List (String × Nat)
  createdAt : Nat
deriving DecidableEq, Repr

/-- Modelled from the spec: `util.LRUCache` (the `sqlalchemy.util`
collection class is not under `src/`; only its use sites are). Per the
spec it is a bounded mapping from SQL text to entries with
least-recently-used eviction when capacity is exceeded and an LRU touch on
every read. Entries are kept most-recently-used first. -/
structure LRUCache where
  capacity : Nat
  entries : List (String × CacheEntry)
deriving DecidableEq, Repr

/-- Modelled from the spec: `sql in cache` / `cache[sql]` lookup. -/
def LRUCache.find (c : LRUCache) (k : String) : Option CacheEntry :=
  (c.entries.find? (fun p => p.1 == k)).map (fun p => p.2)

/-- Modelled from the spec: the LRU touch performed by a read. -/
def LRUCache.touch (c : LRUCache) (k : String) : LRUCache :=
  match c.entries.find? (fun p => p.1 == k) with
  | none => c
  | some p =>
    { c with entries := p :: c.entries.filter (fun q => q.1 != k) }

/-- Modelled from the spec: `cache[sql] = entry`, evicting the
least-recently-used entry beyond capacity. -/
def LRUCache.insert (c : LRUCache) (k : String) (v : CacheEntry) : LRUCache :=
  { c with entries :=
      ((k, v) :: c.entries.filter (fun q => q.1 != k)).take c.capacity }

/-- The `_prepare`-relevant connection fields: the remembered invalidation
timestamp `_invalidate_schema_cache_asof` and the optional cache
(`None` exactly when `prepared_statement_cache_size` was zero,
lines 605-610). -/
structure PrepConn where
  invalidateSchemaCacheAsof : Nat
  cache : Option LRUCache
deriving DecidableEq, Repr

/-- `_check_type_cache_invalidation(invalidate_timestamp)` (lines 612-615);
the Boolean records whether `reload_schema_state()` was awaited. -/
def checkTypeCacheInvalidation (c : PrepConn) (t : Nat) : PrepConn × Bool :=
  if t > c.invalidateSchemaCacheAsof then
    ({ c with invalidateSchemaCacheAsof := t }, true)
  else (c, false)

/-- Outcome of `_prepare`: new connection state, returned statement handle
and attributes, whether the schema state was reloaded, whether a freshly
compiled statement was stored in the cache, and whether the returned
statement was freshly compiled (as opposed to a cache hit). -/
structure PrepResult where
  conn : PrepConn
  stmt : Nat
  attributes : List (String × Nat)
  reloaded : Bool
  stored : Bool
  compiledFresh : Bool
deriving DecidableEq, Repr

/-- `_prepare(operation, invalidate_timestamp)` (lines 617-642).
`freshStmt`/`freshAttrs` stand for `await self._connection.prepare(operation)`
and its `get_attributes()`; `now` stands for the `time.time()` recorded on
store. -/
def prepareStmt (c : PrepConn) (operation : String) (t : Nat)
    (freshStmt : Nat) (freshAttrs : List (String × Nat)) (now : Nat) :
    PrepResult :=
  let c1 := (checkTypeCacheInvalidation c t).1
  let reloaded := (checkTypeCacheInvalidation c t).2
  match c1.cache with
  | none =>
    { conn := c1, stmt := freshStmt, attributes := freshAttrs
      reloaded := reloaded, stored := false, compiledFresh := true }
  | some cache =>
    match cache.find operation with
    | some e =>
      if e.createdAt > t then
        { conn := { c1 with cache := some (cache.touch operation) }
          stmt := e.stmt, attributes := e.attributes
          reloaded := reloaded, stored := false, compiledFresh := false }
      else
        let stored := cache.insert operation ⟨freshStmt, freshAttrs, now⟩
        { conn := { c1 with cache := some stored }
          stmt := freshStmt, attributes := freshAttrs
          reloaded := reloaded, stored := true, compiledFresh := true }
    | none =>
      let stored := cache.insert operation ⟨freshStmt, freshAttrs, now⟩
      { conn := { c1 with cache := some stored }
        stmt := freshStmt, attributes := freshAttrs
        reloaded := reloaded, stored := true, compiledFresh := true }

/-! ### Server-side cursor buffering
`AsyncAdapt_asyncpg_ss_cursor` (lines 493-569). The native streaming
cursor is modelled as the list of rows remaining on the server;
`self._cursor.fetch(n)` removes and returns the first `n` of them. Rows
are `Nat` tags; the deque `_rowbuffer` is a list. -/

structure SSCursor where
  rowbuffer : List Nat
  stream : List Nat
deriving DecidableEq, Repr

/-- Outcome of a fetch call: rows returned to the caller, new cursor state,
and the sizes passed to the native `self._cursor.fetch(...)` calls made, in
order. -/
structure FetchOutcome where
  rows : List Nat
  cursor : SSCursor
  fetchCalls : List Nat
deriving DecidableEq, Repr

/-- `fetchmany(size)` with an explicit size (lines 532-548); `size=None`
delegates to `fetchall` in the source. `_buffer_rows` (lines 506-508)
refills an empty buffer with `fetch(50)` first; then if `size` exceeds the
buffered count `lb`, one `fetch(size - lb)` extends the buffer. -/
def ssFetchmany (c : SSCursor) (size : Nat) : FetchOutcome :=
  let c1 : SSCursor :=
    if c.rowbuffer.isEmpty then
      { rowbuffer := c.stream.take 50, stream := c.stream.drop 50 }
    else c
  let calls1 : List Nat := if c.rowbuffer.isEmpty then [50] else []
  let buf := c1.rowbuffer
  let lb := buf.length
  let buf2 := if size > lb then buf ++ c1.stream.take (size - lb) else buf
  let stream2 := if size > lb then c1.stream.drop (size - lb) else c1.stream
  let calls2 : List Nat := if size > lb then [size - lb] else []
  { rows := buf2.take size
    cursor := { rowbuffer := buf2.drop size, stream := stream2 }
    fetchCalls := calls1 ++ calls2 }

/-- `_all` (lines 557-569): fetch batches of 1000, accumulating, until an
empty batch is returned. Returns the accumulated rows and the number of
`fetch(1000)` calls made (the final empty one included). -/
def ssAll (stream : List Nat) : List Nat × Nat :=
  if h : stream = [] then ([], 1)
  else
    let rest := stream.drop 1000
    have : rest.length < stream.length := by
      have hlen : 0 < stream.length := List.length_pos.mpr h
      simp only [rest, List.length_drop]
      omega
    let r := ssAll rest
    (stream.take 1000 ++ r.1, r.2 + 1)
termination_by stream.length

/-- `fetchall` (lines 550-555): concatenates the remaining buffer with the
result of `_all()` and clears the buffer. -/
def ssFetchall (c : SSCursor) : FetchOutcome :=
  { rows := c.rowbuffer ++ (ssAll c.stream).1
    cursor := { rowbuffer := [], stream := [] }
    fetchCalls := List.replicate (ssAll c.stream).2 1000 }

/-! ### Exception translation
`AsyncAdapt_asyncpg_connection._handle_exception` (lines 644-664) and the
`_asyncpg_error_translate` table (lines 801-812). A native exception class
is identified by a tag; classes that are keys of the mapping table are
named constructors and every other class appearing in a method resolution
order (intermediate asyncpg classes, `Exception`, `object`, ...) is
`other n`. The MRO of the raised exception's type is the input list. -/

inductive AsyncpgExcClass where
  | IntegrityConstraintViolationError
  | PostgresError
  | SyntaxOrAccessError
  | InterfaceError
  | InvalidCachedStatementError
  | InternalServerError
  | other (n : Nat)
deriving DecidableEq, Repr

/-- The generic DBAPI-style exception classes defined on
`AsyncAdapt_asyncpg_dbapi` (lines 759-799). -/
inductive DbapiExcClass where
  | Error
  | Warning
  | InterfaceError
  | DatabaseError
  | InternalError
  | OperationalError
  | ProgrammingError
  | IntegrityError
  | DataError
  | NotSupportedError
  | InternalServerError
  | InvalidCachedStatementError
deriving DecidableEq, Repr

/-- The `_asyncpg_error_translate` mapping (lines 805-812); classes that are
not keys return `none`. -/
def asyncpgErrorTranslate : AsyncpgExcClass → Option DbapiExcClass
  | .IntegrityConstraintViolationError => some .IntegrityError
  | .PostgresError => some .Error
  | .SyntaxOrAccessError => some .ProgrammingError
  | .InterfaceError => some .InterfaceError
  | .InvalidCachedStatementError => some .InvalidCachedStatementError
  | .InternalServerError => some .InternalServerError
  | .other _ => none

/-- What `_handle_exception` raises: an instance of a generic class, or the
original native exception re-raised. -/
inductive HandleRaise where
  | translated (cls : DbapiExcClass)
  | original
deriving DecidableEq, Repr

/-- The `for super_ in type(error).__mro__` walk (lines 652-662): the first
class in the MRO present in the table determines the translated class; the
`for`-`else` re-raises the original error if the walk exhausts. -/
def translateWalk : List AsyncpgExcClass → HandleRaise
  | [] => .original
  | c :: rest =>
    match asyncpgErrorTranslate c with
    | some g => .translated g
    | none => translateWalk rest

/-- `_handle_exception(error)` raise behaviour (lines 649-664):
`isinstance(error, AsyncAdapt_asyncpg_dbapi.Error)` re-raises unchanged,
otherwise the MRO walk runs. -/
def handleExceptionRaise (isDbapiError : Bool)
    (mro : List AsyncpgExcClass) : HandleRaise :=
  if isDbapiError then .original else translateWalk mro

/-! ### JSONB codec
`PGDialect_asyncpg.on_connect` (lines 1006-1055): `_jsonb_encoder`
prepends the single byte `\x01` to `str_value.encode()`, and
`_jsonb_decoder` applies the deserializer to `bin_value[1:].decode()`.
Bytes are `Nat` values; `str.encode()`/`bytes.decode()` are embedded as
the standard UTF-8 encoding of the string's code points, with the decoder
returning `none` where Python's strict `decode()` would raise (truncated
sequences, overlong encodings, surrogates, out-of-range code points).
Decoded text is represented by its code-point sequence. -/

/-- UTF-8 encoding of a single code point. -/
def utf8EncodeCp (v : Nat) : List Nat :=
  if v < 0x80 then [v]
  else if v < 0x800 then [0xC0 + v / 64, 0x80 + v % 64]
  else if v < 0x10000 then
    [0xE0 + v / 4096, 0x80 + v / 64 % 64, 0x80 + v % 64]
  else
    [0xF0 + v / 262144, 0x80 + v / 4096 % 64, 0x80 + v / 64 % 64, 0x80 + v % 64]

def utf8EncodeChar (c : Char) : List Nat :=
  utf8EncodeCp c.toNat

/-- `str.encode()`: UTF-8 bytes of the string. -/
def utf8Encode (s : String) : List Nat :=
  s.data.flatMap utf8EncodeChar

/-- A UTF-8 continuation byte. -/
def isCont (b : Nat) : Bool :=
  0x80 ≤ b && b < 0xC0

/-- Decode one code point from the head of a byte list, returning it and
the remaining bytes; `none` on malformed input. -/
def utf8DecodeChar : List Nat → Option (Nat × List Nat)
  | [] => none
  | b0 :: bs =>
    if b0 < 0x80 then some (b0, bs)
    else if b0 < 0xC0 then none
    else if b0 < 0xE0 then
      match bs with
      | b1 :: bs1 =>
        if isCont b1 then
          let v := (b0 - 0xC0) * 64 + (b1 - 0x80)
          if v < 0x80 then none else some (v, bs1)
        else none
      | [] => none
    else if b0 < 0xF0 then
      match bs with
      | b1 :: b2 :: bs2 =>
        if isCont b1 && isCont b2 then
          let v := (b0 - 0xE0) * 4096 + (b1 - 0x80) * 64 + (b2 - 0x80)
          if v < 0x800 then none
          else if 0xD800 ≤ v && v < 0xE000 then none
          else some (v, bs2)
        else none
      | _ => none
    else if b0 < 0xF8 then
      match bs with
      | b1 :: b2 :: b3 :: bs3 =>
        if isCont b1 && isCont b2 && isCont b3 then
          let v := (b0 - 0xF0) * 262144 + (b1 - 0x80) * 4096
            + (b2 - 0x80) * 64 + (b3 - 0x80)
          if v < 0x10000 then none
          else if v < 0x110000 then some (v, bs3)
          else none
        else none
      | _ => none
    else none

/-- Decode a byte list to code points, with an explicit step bound (each
decoded code point consumes at least one byte, so a bound of the byte
count is always sufficient). -/
def utf8DecodeAux : Nat → List Nat → Option (List Nat)
  | 0, bytes => if bytes = [] then some [] else none
  | fuel + 1, bytes =>
    if bytes = [] then some []
    else
      match utf8DecodeChar bytes with
      | none => none
      | some (cp, rest) => (utf8DecodeAux fuel rest).map (fun cps => cp :: cps)

/-- `bytes.decode()`: decode a whole byte list to its code points. -/
def utf8Decode (bytes : List Nat) : Option (List Nat) :=
  utf8DecodeAux bytes.length bytes

/-- `_jsonb_encoder(str_value)` (lines 1009-1012):
`b"\x01" + str_value.encode()`. -/
def jsonbEncoder (s : String) : List Nat :=
  1 :: utf8Encode s

/-- `_jsonb_decoder(bin_value)` (lines 1019-1022):
`deserializer(bin_value[1:].decode())`, with the caller-supplied
deserializer applied to the decoded text (as code points); `none` when the
`decode()` raises. -/
def jsonbDecoder {J : Type} (deserializer : List Nat → J)
    (binValue : List Nat) : Option J :=
  (utf8Decode (binValue.drop 1)).map deserializer

/-! ## Theorems -/

/-- C10: constructing an `InvalidCachedStatementError` with message `m`
yields the message `m` with the fixed invalidation-notice suffix appended,
and in particular never preserves the native message verbatim. -/
theorem invalidCachedStatement_appends_suffix (m : String) :
    invalidCachedStatementMessage m = m ++ invalidCachedStatementSuffix ∧
    invalidCachedStatementMessage m ≠ m := by
  refine ⟨rfl, fun h => ?_⟩
  have hlen := congrArg String.length h
  rw [invalidCachedStatementMessage, String.length_append] at hlen
  have hpos : 0 < invalidCachedStatementSuffix.length := by decide
  omega

/-- C6: with no declared input types the rendered placeholders are `$1`
through `$n` with no cast annotations; with declared input types, position
`i` renders as `$i::<cast-name>` for a declared type tag and as plain `$i`
for a declared `None`; in particular `(integer, None, json)` renders as
`($1::integer, $2, $3::json)`. -/
theorem parameter_placeholder_rendering :
    (∀ n i : Nat, i < n →
        (parameterPlaceholders none n)[i]? = some ("$" ++ toString (i + 1))) ∧
    (∀ (sizes : List (Option PGType)) (n i : Nat) (t : PGType),
        sizes ≠ [] → sizes[i]? = some (some t) →
        (parameterPlaceholders (some sizes) n)[i]? =
          some ("$" ++ toString (i + 1) ++ "::" ++ pgTypes t)) ∧
    (∀ (sizes : List (Option PGType)) (n i : Nat),
        sizes ≠ [] → sizes[i]? = some none →
        (parameterPlaceholders (some sizes) n)[i]? =
          some ("$" ++ toString (i + 1))) ∧
    parameterPlaceholders (some [some .INTEGER, none, some .JSON]) 3 =
      ["$1::integer", "$2", "$3::json"] ∧
    (∀ n : Nat, (parameterPlaceholders none n).length = n) := by
  refine ⟨?_, ?_, ?_, by rfl, ?_⟩
  · intro n i hi
    simp [parameterPlaceholders, List.getElem?_range, hi]
  · intro sizes n i t hne hget
    match sizes with
    | [] => exact absurd rfl hne
    | t0 :: ts =>
      simp [parameterPlaceholders, List.getElem?_enum, hget, placeholderFor]
  · intro sizes n i hne hget
    match sizes with
    | [] => exact absurd rfl hne
    | t0 :: ts =>
      simp [parameterPlaceholders, List.getElem?_enum, hget, placeholderFor]
  · intro n
    simp [parameterPlaceholders]

/-- C6 witness: concrete instantiation of the positional clauses. -/
theorem parameter_placeholder_rendering_witness :
    (parameterPlaceholders (some [some PGType.INTEGER, none]) 2)[0]? =
      some ("$" ++ toString (0 + 1) ++ "::" ++ pgTypes PGType.INTEGER) :=
  parameter_placeholder_rendering.2.1 [some PGType.INTEGER, none] 2 0
    PGType.INTEGER (by simp) (by rfl)

/-- C2: `commit` and `rollback` are no-ops (no native call, state
unchanged) when no transaction is started, and otherwise — whether the
native coroutine succeeds or fails — always leave the connection with an
empty transaction handle and a cleared started flag. -/
theorem commit_rollback_always_clear (s : ConnState)
    (nativeOk closedAtError : Bool) :
    (s.started = false →
      commitOp s nativeOk closedAtError =
        { state := s, nativeCalled := false, raised := false } ∧
      rollbackOp s nativeOk closedAtError =
        { state := s, nativeCalled := false, raised := false }) ∧
    (s.started = true →
      (commitOp s nativeOk closedAtError).state.transaction = none ∧
      (commitOp s nativeOk closedAtError).state.started = false ∧
      (commitOp s nativeOk closedAtError).nativeCalled = true ∧
      (commitOp s nativeOk closedAtError).raised = !nativeOk ∧
      (rollbackOp s nativeOk closedAtError).state.transaction = none ∧
      (rollbackOp s nativeOk closedAtError).state.started = false ∧
      (rollbackOp s nativeOk closedAtError).nativeCalled = true ∧
      (rollbackOp s nativeOk closedAtError).raised = !nativeOk) := by
  constructor
  · intro h
    simp [commitOp, rollbackOp, h]
  · intro h
    cases nativeOk <;> cases closedAtError <;>
      simp [commitOp, rollbackOp, handleExceptionState, h]

/-- C2 witness: a started connection, failing native commit. -/
theorem commit_rollback_always_clear_witness :
    (commitOp { initConn with transaction := some 5, started := true }
        false false).state.transaction = none :=
  ((commit_rollback_always_clear _ false false).2 rfl).1

theorem txInv_startTransaction {s : ConnState} (ih : txInv s) (nh : Nat)
    (c st cl : Bool) : txInv (startTransaction s nh c st cl).state := by
  unfold txInv startTransaction handleExceptionState
  by_cases hiso : s.isolationLevel = "autocommit"
  · simpa [hiso] using ih
  · cases c <;> cases st <;> cases cl <;> simp_all [txInv]

theorem txInv_rollbackOp {s : ConnState} (ih : txInv s) (ok cl : Bool) :
    txInv (rollbackOp s ok cl).state := by
  have hs := ih
  unfold txInv rollbackOp handleExceptionState
  by_cases hst : s.started <;> cases ok <;> cases cl <;> simp_all [txInv]

theorem txInv_commitOp {s : ConnState} (ih : txInv s) (ok cl : Bool) :
    txInv (commitOp s ok cl).state := by
  have hs := ih
  unfold txInv commitOp handleExceptionState
  by_cases hst : s.started <;> cases ok <;> cases cl <;> simp_all [txInv]

theorem txInv_closeOp {s : ConnState} (ih : txInv s) (ok cl cok : Bool) :
    txInv (closeOp s ok cl cok).state := by
  unfold closeOp
  have h := txInv_rollbackOp ih ok cl
  by_cases hr : (rollbackOp s ok cl).raised <;> simp_all

theorem txInv_setAutocommit {s : ConnState} (ih : txInv s) (v : Bool) :
    txInv (setAutocommit s v) := by
  unfold txInv setAutocommit
  cases v <;> simp_all [txInv]

theorem txInv_setIsolationLevelOp {s : ConnState} (ih : txInv s)
    (lvl : String) (ok cl : Bool) :
    txInv (setIsolationLevelOp s lvl ok cl).state := by
  unfold setIsolationLevelOp
  have h := txInv_rollbackOp ih ok cl
  by_cases hr : (rollbackOp s ok cl).raised <;> simp_all [txInv]

/-- C1 counterexample: when the native `transaction.start()` call fails with
the connection still open, `_start_transaction` leaves the assigned
transaction handle in place with the started flag still false — a
reachable state in which the handle is non-empty but `_started` is false,
refuting the claimed if-and-only-if invariant. -/
theorem transaction_iff_started_counterexample :
    ReachableConn (startTransaction initConn 0 true false false).state ∧
    ¬(((startTransaction initConn 0 true false false).state.transaction ≠
          none) ↔
        (startTransaction initConn 0 true false false).state.started =
          true) := by
  refine ⟨ReachableConn.startTx ReachableConn.init 0 true false false, ?_⟩
  decide

/-- C1 (amended): for every reachable state of an adapted connection, if
the started flag is true then the transaction handle is non-empty. (The
converse direction fails; see the counterexample.) -/
theorem reachable_started_implies_transaction (s : ConnState)
    (hr : ReachableConn s) (hs : s.started = true) : s.transaction ≠ none := by
  suffices h : txInv s from h hs
  clear hs
  induction hr with
  | init => intro hs; simp [initConn] at hs
  | startTx h nh c st cl ih => exact txInv_startTransaction ih nh c st cl
  | commit h ok cl ih => exact txInv_commitOp ih ok cl
  | rollback h ok cl ih => exact txInv_rollbackOp ih ok cl
  | close h ok cl cok ih => exact txInv_closeOp ih ok cl cok
  | autocommit h v ih => exact txInv_setAutocommit ih v
  | setIso h lvl ok cl ih => exact txInv_setIsolationLevelOp ih lvl ok cl

/-- C1 witness: a successfully started transaction is a reachable state
with the started flag set, and the theorem yields its non-empty handle. -/
theorem reachable_started_implies_transaction_witness :
    (startTransaction initConn 7 true true false).state.transaction ≠
      none :=
  reachable_started_implies_transaction _
    (ReachableConn.startTx ReachableConn.init 7 true true false) (by decide)

theorem translateWalk_first_match (pre post : List AsyncpgExcClass)
    (c : AsyncpgExcClass) (g : DbapiExcClass)
    (hpre : ∀ x ∈ pre, asyncpgErrorTranslate x = none)
    (hc : asyncpgErrorTranslate c = some g) :
    translateWalk (pre ++ c :: post) = .translated g := by
  induction pre with
  | nil => simp [translateWalk, hc]
  | cons p ps ih =>
    have hp : asyncpgErrorTranslate p = none := hpre p (by simp)
    simp only [List.cons_append, translateWalk, hp]
    exact ih fun x hx => hpre x (by simp [hx])

theorem translateWalk_no_match (mro : List AsyncpgExcClass)
    (h : ∀ x ∈ mro, asyncpgErrorTranslate x = none) :
    translateWalk mro = .original := by
  induction mro with
  | nil => rfl
  | cons p ps ih =>
    have hp : asyncpgErrorTranslate p = none := h p (by simp)
    simp only [translateWalk, hp]
    exact ih fun x hx => h x (by simp [hx])

/-- C7: for a native (non-generic) exception, `_handle_exception` walks the
exception type's inheritance chain (its MRO) against the
`_asyncpg_error_translate` table, raising an instance of the generic class
mapped from the first class of the chain present in the table, and
re-raises the original exception unmodified when no class of the chain is
in the table. -/
theorem exception_translation_walk (mro : List AsyncpgExcClass) :
    (∀ (pre post : List AsyncpgExcClass) (c : AsyncpgExcClass)
        (g : DbapiExcClass),
      mro = pre ++ c :: post →
      (∀ x ∈ pre, asyncpgErrorTranslate x = none) →
      asyncpgErrorTranslate c = some g →
      handleExceptionRaise false mro = .translated g) ∧
    ((∀ x ∈ mro, asyncpgErrorTranslate x = none) →
      handleExceptionRaise false mro = .original) := by
  constructor
  · intro pre post c g hsplit hpre hc
    rw [handleExceptionRaise, if_neg (by simp), hsplit]
    exact translateWalk_first_match pre post c g hpre hc
  · intro h
    rw [handleExceptionRaise, if_neg (by simp)]
    exact translateWalk_no_match mro h

/-- C7 witness: the MRO of `asyncpg.exceptions.UniqueViolationError`
(a subclass chain passing through `IntegrityConstraintViolationError`
before `PostgresError`) translates to `IntegrityError`, the mapping of the
first matching ancestor. -/
theorem exception_translation_walk_witness :
    handleExceptionRaise false
      [.other 0, .IntegrityConstraintViolationError, .PostgresError,
        .other 1] = .translated .IntegrityError :=
  (exception_translation_walk _).1 [.other 0]
    [.PostgresError, .other 1] .IntegrityConstraintViolationError
    .IntegrityError rfl (by decide) rfl

theorem LRUCache_find_insert (cc : LRUCache) (k : String) (v : CacheEntry)
    (h : 0 < cc.capacity) : (cc.insert k v).find k = some v := by
  unfold LRUCache.insert LRUCache.find
  obtain ⟨n, hn⟩ : ∃ n, cc.capacity = n + 1 := ⟨cc.capacity - 1, by omega⟩
  simp [hn, List.find?]

/-- C3: `_prepare(sql, t)` (1) reloads schema state and advances the
remembered invalidation timestamp to `t` exactly when `t` is newer,
(2) with the cache disabled compiles a fresh statement and returns it
without storing, (3) returns the cached entry on a hit whose stored
creation timestamp is strictly newer than `t`, and (4) otherwise compiles
a fresh statement, stores it under the SQL text with the current time, and
returns it. -/
theorem prepare_cache_contract (c : PrepConn) (op : String)
    (t fs now : Nat) (fa : List (String × Nat)) :
    (t > c.invalidateSchemaCacheAsof →
      (prepareStmt c op t fs fa now).reloaded = true ∧
      (prepareStmt c op t fs fa now).conn.invalidateSchemaCacheAsof = t) ∧
    (¬t > c.invalidateSchemaCacheAsof →
      (prepareStmt c op t fs fa now).reloaded = false ∧
      (prepareStmt c op t fs fa now).conn.invalidateSchemaCacheAsof =
        c.invalidateSchemaCacheAsof) ∧
    (c.cache = none →
      (prepareStmt c op t fs fa now).stmt = fs ∧
      (prepareStmt c op t fs fa now).attributes = fa ∧
      (prepareStmt c op t fs fa now).stored = false ∧
      (prepareStmt c op t fs fa now).compiledFresh = true ∧
      (prepareStmt c op t fs fa now).conn.cache = none) ∧
    (∀ (cc : LRUCache) (e : CacheEntry), c.cache = some cc →
      cc.find op = some e → e.createdAt > t →
      (prepareStmt c op t fs fa now).stmt = e.stmt ∧
      (prepareStmt c op t fs fa now).attributes = e.attributes ∧
      (prepareStmt c op t fs fa now).stored = false ∧
      (prepareStmt c op t fs fa now).compiledFresh = false) ∧
    (∀ cc : LRUCache, c.cache = some cc →
      (cc.find op = none ∨ ∃ e, cc.find op = some e ∧ ¬e.createdAt > t) →
      (prepareStmt c op t fs fa now).stmt = fs ∧
      (prepareStmt c op t fs fa now).attributes = fa ∧
      (prepareStmt c op t fs fa now).stored = true ∧
      (prepareStmt c op t fs fa now).compiledFresh = true ∧
      (0 < cc.capacity →
        ∃ cc', (prepareStmt c op t fs fa now).conn.cache = some cc' ∧
          cc'.find op = some ⟨fs, fa, now⟩)) := by
  refine ⟨?_, ?_, ?_, ?_, ?_⟩
  · intro ht
    rcases hc : c.cache with _ | cc
    · simp [prepareStmt, checkTypeCacheInvalidation, ht, hc]
    · rcases hf : cc.find op with _ | e
      · simp [prepareStmt, checkTypeCacheInvalidation, ht, hc, hf]
      · by_cases he : e.createdAt > t <;>
          simp [prepareStmt, checkTypeCacheInvalidation, ht, hc, hf, he]
  · intro ht
    rcases hc : c.cache with _ | cc
    · simp [prepareStmt, checkTypeCacheInvalidation, ht, hc]
    · rcases hf : cc.find op with _ | e
      · simp [prepareStmt, checkTypeCacheInvalidation, ht, hc, hf]
      · by_cases he : e.createdAt > t <;>
          simp [prepareStmt, checkTypeCacheInvalidation, ht, hc, hf, he]
  · intro hc
    by_cases ht : t > c.invalidateSchemaCacheAsof <;>
      simp [prepareStmt, checkTypeCacheInvalidation, ht, hc]
  · intro cc e hc hf he
    by_cases ht : t > c.invalidateSchemaCacheAsof <;>
      simp [prepareStmt, checkTypeCacheInvalidation, ht, hc, hf, he]
  · intro cc hc hmiss
    have hstep : ∀ hcap : 0 < cc.capacity,
        (cc.insert op ⟨fs, fa, now⟩).find op = some ⟨fs, fa, now⟩ :=
      fun hcap => LRUCache_find_insert cc op ⟨fs, fa, now⟩ hcap
    rcases hmiss with hf | ⟨e, hf, he⟩
    · by_cases ht : t > c.invalidateSchemaCacheAsof <;>
        · simp [prepareStmt, checkTypeCacheInvalidation, ht, hc, hf]
          exact hstep
    · by_cases ht : t > c.invalidateSchemaCacheAsof <;>
        · simp [prepareStmt, checkTypeCacheInvalidation, ht, hc, hf, he]
          exact hstep

/-- C3 witness: cache disabled (capacity zero at construction means no
cache object), fresh compile returned unstored. -/
theorem prepare_cache_contract_witness :
    (prepareStmt { invalidateSchemaCacheAsof := 0, cache := none }
        "SELECT 1" 1 42 [] 9).stmt = 42 :=
  ((prepare_cache_contract { invalidateSchemaCacheAsof := 0, cache := none }
      "SELECT 1" 1 42 9 []).2.2.1 rfl).1

theorem ssAll_fst (s : List Nat) : (ssAll s).1 = s := by
  have H : ∀ n (l : List Nat), l.length ≤ n → (ssAll l).1 = l := by
    intro n
    induction n with
    | zero =>
      intro l hl
      have hnil : l = [] := List.length_eq_zero.mp (Nat.le_zero.mp hl)
      subst hnil
      rw [ssAll]
      simp
    | succ n ih =>
      intro l hl
      rw [ssAll]
      by_cases h : l = []
      · simp [h]
      · have hrest := ih (l.drop 1000) (by simp [List.length_drop]; omega)
        simp [h, hrest]
  exact H s.length s le_rfl

theorem ssAll_snd_pos (s : List Nat) : 0 < (ssAll s).2 := by
  rw [ssAll]
  by_cases h : s = [] <;> simp [h]

/-- C4 counterexample: `fetchmany(1)` on an empty row buffer (with rows
still streaming) makes a single native fetch of the fixed read-ahead size
50 — not a fetch of size `k - buffered = 1` as claimed. -/
theorem ss_fetchmany_counterexample :
    (ssFetchmany { rowbuffer := [], stream := [1, 2, 3] } 1).fetchCalls =
      [50] ∧
    (ssFetchmany { rowbuffer := [], stream := [1, 2, 3] } 1).fetchCalls ≠
      [1 - 0] := by
  decide

/-- C4 (amended): `fetchmany(k)` with a non-empty buffer triggers exactly
one additional fetch of size `k - buffered` when `k` exceeds the buffer
and none otherwise; with an empty buffer it first refills with one fetch
of 50 and then makes one additional fetch of the remaining shortfall if
`k` still exceeds the refilled buffer. `fetchall` drains the buffer and
the stream (returning their concatenation) using only fetches of batch
size 1000, with at least one fetch (the final empty batch). -/
theorem ss_cursor_batching (c : SSCursor) (k : Nat) :
    (c.rowbuffer ≠ [] → k > c.rowbuffer.length →
      (ssFetchmany c k).fetchCalls = [k - c.rowbuffer.length]) ∧
    (c.rowbuffer ≠ [] → k ≤ c.rowbuffer.length →
      (ssFetchmany c k).fetchCalls = []) ∧
    (c.rowbuffer = [] →
      (ssFetchmany c k).fetchCalls =
        50 :: (if k > (c.stream.take 50).length
          then [k - (c.stream.take 50).length] else [])) ∧
    ((ssFetchall c).rows = c.rowbuffer ++ c.stream) ∧
    (∀ n ∈ (ssFetchall c).fetchCalls, n = 1000) ∧
    (ssFetchall c).fetchCalls ≠ [] := by
  refine ⟨?_, ?_, ?_, ?_, ?_, ?_⟩
  · intro hne hk
    have hb : c.rowbuffer.isEmpty = false := by
      simpa [List.isEmpty_iff] using hne
    simp [ssFetchmany, hb, hk]
  · intro hne hk
    have hb : c.rowbuffer.isEmpty = false := by
      simpa [List.isEmpty_iff] using hne
    simp [ssFetchmany, hb, Nat.not_lt.mpr hk]
  · intro hb
    simp [ssFetchmany, hb]
  · simp [ssFetchall, ssAll_fst]
  · intro n hn
    simp only [ssFetchall] at hn
    exact List.eq_of_mem_replicate hn
  · simp only [ssFetchall, ne_eq, List.replicate_eq_nil_iff]
    have := ssAll_snd_pos c.stream
    omega

/-- C4 witness: buffer `[7]`, request 3 rows: one fetch of size 2. -/
theorem ss_cursor_batching_witness :
    (ssFetchmany { rowbuffer := [7], stream := [1, 2, 3] } 3).fetchCalls =
      [3 - 1] :=
  (ss_cursor_batching { rowbuffer := [7], stream := [1, 2, 3] } 3).1
    (by decide) (by decide)

theorem dropLit_append (l s : List Char) : dropLit l (l ++ s) = some s := by
  induction l with
  | nil => rfl
  | cons c cs ih => simp [dropLit, ih]

theorem dropLit_head_ne (l : Char) (ls : List Char) (c : Char)
    (cs : List Char) (h : c ≠ l) : dropLit (l :: ls) (c :: cs) = none := by
  simp [dropLit, h]

theorem takeWhile_all_append (p : Char → Bool) (ds rest : List Char)
    (h1 : ∀ c ∈ ds, p c = true) (h2 : ∀ c ∈ rest.take 1, p c = false) :
    (ds ++ rest).takeWhile p = ds := by
  induction ds with
  | nil =>
    cases rest with
    | nil => rfl
    | cons r rs =>
      have hr : p r = false := h2 r (by simp)
      simp [List.takeWhile_cons, hr]
  | cons d ds ih =>
    have hd : p d = true := h1 d (by simp)
    simp only [List.cons_append, List.takeWhile_cons, hd, if_true]
    rw [ih (fun c hc => h1 c (by simp [hc]))]

theorem captureCount_append (ds rest : List Char) (hne : ds ≠ [])
    (h1 : ∀ c ∈ ds, c.isDigit = true)
    (h2 : ∀ c ∈ rest.take 1, c.isDigit = false) :
    captureCount (ds ++ rest) = some (digitsToNat ds) := by
  unfold captureCount
  rw [takeWhile_all_append _ ds rest h1 h2]
  simp [hne]

/-- C5: a driver status matching `(?:UPDATE|DELETE|INSERT \d+) (\d+)`
yields a rowcount equal to the captured integer ("UPDATE 3" gives 3,
"INSERT 0 1" gives 1) and any non-matching status ("SELECT" included)
yields rowcount -1. -/
theorem rowcount_status_parsing :
    (∀ ds rest : List Char, ds ≠ [] → (∀ c ∈ ds, c.isDigit = true) →
      (∀ c ∈ rest.take 1, c.isDigit = false) →
      rowcountFromStatus (String.mk ("UPDATE ".data ++ (ds ++ rest))) =
        Int.ofNat (digitsToNat ds) ∧
      rowcountFromStatus (String.mk ("DELETE ".data ++ (ds ++ rest))) =
        Int.ofNat (digitsToNat ds)) ∧
    (∀ ds1 ds2 rest : List Char, ds1 ≠ [] →
      (∀ c ∈ ds1, c.isDigit = true) → ds2 ≠ [] →
      (∀ c ∈ ds2, c.isDigit = true) →
      (∀ c ∈ rest.take 1, c.isDigit = false) →
      rowcountFromStatus
        (String.mk ("INSERT ".data ++ (ds1 ++ ' ' :: (ds2 ++ rest)))) =
        Int.ofNat (digitsToNat ds2)) ∧
    rowcountFromStatus "UPDATE 3" = 3 ∧
    rowcountFromStatus "INSERT 0 1" = 1 ∧
    rowcountFromStatus "SELECT" = -1 ∧
    (∀ status : String, statusRegexMatch status.data = none →
      rowcountFromStatus status = -1) := by
  refine ⟨?_, ?_, by decide, by decide, by decide, ?_⟩
  · intro ds rest hne hds hrest
    constructor
    · have hm : statusRegexMatch ("UPDATE ".data ++ (ds ++ rest)) =
          some (digitsToNat ds) := by
        unfold statusRegexMatch
        rw [dropLit_append]
        exact captureCount_append ds rest hne hds hrest
      unfold rowcountFromStatus
      rw [show (String.mk ("UPDATE ".data ++ (ds ++ rest))).data =
        "UPDATE ".data ++ (ds ++ rest) from rfl, hm]
    · have hD : ("DELETE ".data ++ (ds ++ rest)) =
          'D' :: ("ELETE ".data ++ (ds ++ rest)) := rfl
      have hU : "UPDATE ".data = 'U' :: "PDATE ".data := rfl
      have hnoU : dropLit "UPDATE ".data ("DELETE ".data ++ (ds ++ rest)) =
          none := by
        rw [hD, hU]
        exact dropLit_head_ne _ _ _ _ (by decide)
      have hm : statusRegexMatch ("DELETE ".data ++ (ds ++ rest)) =
          some (digitsToNat ds) := by
        unfold statusRegexMatch
        rw [hnoU, dropLit_append]
        exact captureCount_append ds rest hne hds hrest
      unfold rowcountFromStatus
      rw [show (String.mk ("DELETE ".data ++ (ds ++ rest))).data =
        "DELETE ".data ++ (ds ++ rest) from rfl, hm]
  · intro ds1 ds2 rest hne1 hds1 hne2 hds2 hrest
    have hI : ("INSERT ".data ++ (ds1 ++ ' ' :: (ds2 ++ rest))) =
        'I' :: ("NSERT ".data ++ (ds1 ++ ' ' :: (ds2 ++ rest))) := rfl
    have hU : "UPDATE ".data = 'U' :: "PDATE ".data := rfl
    have hDe : "DELETE ".data = 'D' :: "ELETE ".data := rfl
    have hnoU : dropLit "UPDATE ".data
        ("INSERT ".data ++ (ds1 ++ ' ' :: (ds2 ++ rest))) = none := by
      rw [hI, hU]
      exact dropLit_head_ne _ _ _ _ (by decide)
    have hnoD : dropLit "DELETE ".data
        ("INSERT ".data ++ (ds1 ++ ' ' :: (ds2 ++ rest))) = none := by
      rw [hI, hDe]
      exact dropLit_head_ne _ _ _ _ (by decide)
    have htw : (ds1 ++ ' ' :: (ds2 ++ rest)).takeWhile Char.isDigit = ds1 :=
      takeWhile_all_append _ ds1 (' ' :: (ds2 ++ rest)) hds1
        (by intro c hc; simp at hc; subst hc; decide)
    have hdrop : (ds1 ++ ' ' :: (ds2 ++ rest)).drop ds1.length =
        ' ' :: (ds2 ++ rest) := List.drop_left ds1 _
    have hbne : ds1.isEmpty = false := by
      simpa [List.isEmpty_iff] using hne1
    have hai : afterInsert (ds1 ++ ' ' :: (ds2 ++ rest)) =
        some (digitsToNat ds2) := by
      unfold afterInsert
      simp only [htw, hbne, Bool.false_eq_true, if_false, hdrop]
      simpa using captureCount_append ds2 rest hne2 hds2 hrest
    have hm : statusRegexMatch ("INSERT ".data ++ (ds1 ++ ' ' ::
        (ds2 ++ rest))) = some (digitsToNat ds2) := by
      unfold statusRegexMatch
      rw [hnoU, hnoD, dropLit_append]
      exact hai
    unfold rowcountFromStatus
    rw [show (String.mk ("INSERT ".data ++ (ds1 ++ ' ' ::
      (ds2 ++ rest)))).data =
      "INSERT ".data ++ (ds1 ++ ' ' :: (ds2 ++ rest)) from rfl, hm]
  · intro status h
    simp [rowcountFromStatus, h]

/-- C5 witness: the general clauses at concrete digit strings. -/
theorem rowcount_status_parsing_witness :
    rowcountFromStatus (String.mk ("UPDATE ".data ++ (['4', '2'] ++ []))) =
      Int.ofNat (digitsToNat ['4', '2']) :=
  ((rowcount_status_parsing.1 ['4', '2'] [] (by decide) (by decide)
    (by decide)).1)

theorem utf8DecodeChar_encodeCp (v : Nat) (rest : List Nat)
    (hv : v < 0xd800 ∨ (0xdfff < v ∧ v < 0x110000)) :
    utf8DecodeChar (utf8EncodeCp v ++ rest) = some (v, rest) := by
  unfold utf8EncodeCp
  by_cases h1 : v < 0x80
  · simp only [if_pos h1, List.cons_append, List.nil_append, utf8DecodeChar,
      if_pos h1]
  · by_cases h2 : v < 0x800
    · simp only [if_neg h1, if_pos h2, List.cons_append, List.nil_append,
        utf8DecodeChar, isCont]
      rw [if_neg (by omega), if_neg (by omega), if_pos (by omega),
        if_pos (by simp only [Bool.and_eq_true, decide_eq_true_eq]; omega),
        if_neg (by omega)]
      simp only [Option.some.injEq, Prod.mk.injEq]
      exact ⟨by omega, trivial⟩
    · by_cases h3 : v < 0x10000
      · simp only [if_neg h1, if_neg h2, if_pos h3, List.cons_append,
          List.nil_append, utf8DecodeChar, isCont]
        rw [if_neg (by omega), if_neg (by omega), if_neg (by omega),
          if_pos (by omega),
          if_pos (by simp only [Bool.and_eq_true, decide_eq_true_eq]; omega),
          if_neg (by omega),
          if_neg (by simp only [Bool.and_eq_true, decide_eq_true_eq]; omega)]
        simp only [Option.some.injEq, Prod.mk.injEq]
        exact ⟨by omega, trivial⟩
      · simp only [if_neg h1, if_neg h2, if_neg h3, List.cons_append,
          List.nil_append, utf8DecodeChar, isCont]
        rw [if_neg (by omega), if_neg (by omega), if_neg (by omega),
          if_neg (by omega), if_pos (by omega),
          if_pos (by simp only [Bool.and_eq_true, decide_eq_true_eq]; omega),
          if_neg (by omega), if_pos (by omega)]
        simp only [Option.some.injEq, Prod.mk.injEq]
        exact ⟨by omega, trivial⟩

theorem utf8EncodeCp_ne_nil (v : Nat) : utf8EncodeCp v ≠ [] := by
  unfold utf8EncodeCp
  split
  · simp
  · split
    · simp
    · split <;> simp

theorem utf8DecodeChar_encodeChar (c : Char) (rest : List Nat) :
    utf8DecodeChar (utf8EncodeChar c ++ rest) = some (c.toNat, rest) :=
  utf8DecodeChar_encodeCp c.toNat rest c.valid

theorem utf8DecodeAux_encode (cs : List Char) :
    ∀ fuel, (cs.flatMap utf8EncodeChar).length ≤ fuel →
      utf8DecodeAux fuel (cs.flatMap utf8EncodeChar) =
        some (cs.map Char.toNat) := by
  induction cs with
  | nil => intro fuel hf; cases fuel <;> simp [utf8DecodeAux]
  | cons c cs ih =>
    intro fuel hf
    have hne1 : utf8EncodeChar c ≠ [] := utf8EncodeCp_ne_nil c.toNat
    have hne : utf8EncodeChar c ++ cs.flatMap utf8EncodeChar ≠ [] := by
      intro h
      exact hne1 (List.append_eq_nil.mp h).1
    match fuel with
    | 0 =>
      exfalso
      rw [List.flatMap_cons] at hf
      have hp : 0 < (utf8EncodeChar c ++ cs.flatMap utf8EncodeChar).length :=
        List.length_pos.mpr hne
      omega
    | fuel + 1 =>
      rw [List.flatMap_cons]
      have hlen : (cs.flatMap utf8EncodeChar).length ≤ fuel := by
        rw [List.flatMap_cons, List.length_append] at hf
        have hp : 0 < (utf8EncodeChar c).length := List.length_pos.mpr hne1
        omega
      simp only [utf8DecodeAux, if_neg hne, utf8DecodeChar_encodeChar,
        ih fuel hlen, Option.map_some', List.map_cons]

theorem utf8Decode_encode (s : String) :
    utf8Decode (utf8Encode s) = some (s.data.map Char.toNat) :=
  utf8DecodeAux_encode s.data _ le_rfl

/-- C8: the JSONB encoder emits the single prefix byte 0x01 followed by
the UTF-8 encoding of the text; the JSONB decoder strips exactly the first
byte of its input, UTF-8-decodes the remainder and applies the
deserializer; consequently decoding an encoded text yields the
deserializer applied to the original text. -/
theorem jsonb_codec_roundtrip {J : Type} (deserializer : List Nat → J)
    (s : String) :
    jsonbEncoder s = 1 :: utf8Encode s ∧
    (∀ b : List Nat, jsonbDecoder deserializer b =
      (utf8Decode (b.drop 1)).map deserializer) ∧
    jsonbDecoder deserializer (jsonbEncoder s) =
      some (deserializer (s.data.map Char.toNat)) := by
  refine ⟨rfl, fun b => rfl, ?_⟩
  unfold jsonbDecoder jsonbEncoder
  simp [utf8Decode_encode]
